import Mathlib

/-!
Verification of the Google Trends batch normalizer (src/code.py).

The development shallowly embeds the core pipeline of the script:
loading (textual date parsing with a format fallback chain), anchor
resolution over the keyword-set intersection, per-row scaling against
the first batch's anchor series, and the final column-wise merge.
Numeric cells are modelled as Option ℚ, with none standing for pandas
NaN (the script's undefined marker); machine floats are modelled by
exact rationals.  Date keys inside the pipeline are modelled as
integers (any key type with decidable equality would do); the loader's
textual date parsing is modelled separately, over strings.
-/

namespace GTN

/-- One data row of a batch: the date key plus the value cells, in the
order of the batch's column list.  A none cell is pandas NaN. -/
structure Row where
  date : Int
  vals : List (Option ℚ)
deriving DecidableEq

/-- A loaded batch: the named value columns (the date column is held
apart, as in the script after the rename at src/code.py:23) and the
data rows.  Data-model invariant: within a batch, dates are unique and
every row has one cell per column. -/
structure Batch where
  cols : List String
  rows : List Row
deriving DecidableEq

/-- NaN-propagating multiplication of cells, as in the per-column
multiply at src/code.py:93. -/
def omul (v f : Option ℚ) : Option ℚ :=
  match v with
  | none => none
  | some a =>
    match f with
    | none => none
    | some b => some (a * b)

/-- Position of a column name in the column list (pandas column lookup). -/
def indexOfCol (c : String) : List String → Option Nat
  | [] => none
  | k :: ks => if k = c then some 0 else (indexOfCol c ks).map (fun i => i + 1)

/-- Cell of a row under a named column; none when the column is absent
or the cell is NaN. -/
def getCol (cols : List String) (r : Row) (c : String) : Option ℚ :=
  match indexOfCol c cols with
  | none => none
  | some i => (r.vals[i]?).join

/-- Cell of a batch at a date and a column: the date lookup behind the
merges on date (dates are unique per batch, so find? is the join). -/
def cellOf (b : Batch) (d : Int) (c : String) : Option ℚ :=
  match b.rows.find? (fun r => decide (r.date = d)) with
  | none => none
  | some r => getCol b.cols r c

/-- Per-row scaling factor, from the np.where at src/code.py:76-80: a
zero anchor value gives NaN (none), a NaN reference or anchor cell
also propagates NaN, and otherwise the factor is reference / anchor. -/
def rowFactor (refv av : Option ℚ) : Option ℚ :=
  match av with
  | none => none
  | some a => if a = 0 then none else refv.map (fun rv => rv / a)

/-- Rescale a row: every value cell (the anchor included, the date
excluded) is multiplied by the row's factor (src/code.py:88-93). -/
def scaleRow (f : Option ℚ) (r : Row) : Row :=
  ⟨r.date, r.vals.map (fun v => omul v f)⟩

/-- Scaling factor of one row of a batch against the reference batch:
the left merge on date at src/code.py:73 followed by the np.where. -/
def batchFactor (ref : Batch) (anchor : String) (b : Batch) (r : Row) : Option ℚ :=
  rowFactor (cellOf ref r.date anchor) (getCol b.cols r anchor)

/-- Normalized batch (src/code.py:71-98): the same rows in the same
order (both merges are how=left over unique dates, so no row is
dropped or duplicated), each rescaled by its per-date factor. -/
def normalizeBatch (ref : Batch) (anchor : String) (b : Batch) : Batch :=
  ⟨b.cols, b.rows.map (fun r => scaleRow (batchFactor ref anchor b r) r)⟩

/-- Intersection of the keyword sets of all batches (set.intersection
at src/code.py:58), presented over the first batch's column order;
only membership and emptiness of the result are used below. -/
def commonInter : List Batch → List String
  | [] => []
  | b :: rest => b.cols.filter (fun k => rest.all (fun b2 => decide (k ∈ b2.cols)))

/-- Anchor selection (src/code.py:62): the head of the enumeration of
the intersection set.  Python's set enumeration order is unspecified
(hash dependent), so the enumeration list is a parameter of the model. -/
def anchorChoice (enum : List String) : Option String := enum.head?

/-- Helper for first-occurrence de-duplication, accumulating the names
already seen. -/
def keepFirstAux {α : Type} [DecidableEq α] (seen : List α) : List α → List α
  | [] => []
  | x :: xs => if x ∈ seen then keepFirstAux seen xs else x :: keepFirstAux (x :: seen) xs

/-- First-occurrence de-duplication, as the pandas columns.duplicated
filter with keep=first at src/code.py:102. -/
def keepFirst {α : Type} [DecidableEq α] (l : List α) : List α := keepFirstAux [] l

/-- Column names of the merged table: the concatenation of all batches'
columns (pd.concat axis=1 at src/code.py:101) with later duplicates
removed (src/code.py:102). -/
def mergedCols (bs : List Batch) : List String :=
  keepFirst (List.flatten (bs.map Batch.cols))

/-- Date index of the merged table: pd.concat axis=1 takes the union of
the batches' date indexes (outer join); the order of the union is not
modelled beyond first appearance. -/
def mergedDates (bs : List Batch) : List Int :=
  keepFirst (List.flatten (bs.map (fun b => b.rows.map Row.date)))

/-- Cell of the merged table: the kept occurrence of a duplicated
column name is the first one, so a column's values come from the first
batch carrying that name; a date that batch lacks is NaN (the
outer-join fill of pd.concat). -/
def mergedCell (bs : List Batch) (c : String) (d : Int) : Option ℚ :=
  match bs.find? (fun b => decide (c ∈ b.cols)) with
  | none => none
  | some b => cellOf b d c

/-- Error shown when the keyword intersection is empty (src/code.py:60). -/
def errorMsg : String := "No common keyword found across all batches."

/-- Success message naming the auto-detected anchor (src/code.py:63). -/
def successMsg (a : String) : String :=
  "Auto-detected anchor keyword: **" ++ a ++ "**"

/-- Messages the normalization stage surfaces to the user: the error on
an empty intersection, else only the anchor-detection notice — the
scaling loop and the merge at src/code.py:65-103 emit no message at
all.  The enum parameter is the unspecified enumeration of the
intersection set; its empty case is unreachable when it enumerates a
nonempty set and is mapped to the error message. -/
def runMessages (bs : List Batch) (enum : List String) : List String :=
  if commonInter bs = [] then [errorMsg]
  else
    match enum with
    | [] => [errorMsg]
    | a :: _ => [successMsg a]

/-- Scaling stage of the run: every batch (the reference batch itself
included) is normalized against the first batch, under the anchor at
the head of the set enumeration (src/code.py:62-98).  The fallthrough
cases are unreachable when the enumeration is of a nonempty
intersection (which forces a nonempty batch list too). -/
def runScaling (bs : List Batch) (enum : List String) : Except String (List Batch) :=
  match enum, bs with
  | a :: _, ref :: rest => Except.ok ((ref :: rest).map (normalizeBatch ref a))
  | _, _ => Except.error errorMsg

/-- The normalization run (src/code.py:58-98): on an empty intersection
the script shows the error and produces nothing; otherwise it scales
every batch against the first one. -/
def runPipeline (bs : List Batch) (enum : List String) : Except String (List Batch) :=
  if commonInter bs = [] then Except.error errorMsg else runScaling bs enum

/-- A parsed calendar date, as produced by the loader. -/
structure GDate where
  year : Nat
  month : Nat
  day : Nat
deriving DecidableEq

/-- Gregorian leap year. -/
def isLeap (y : Nat) : Bool := y % 4 = 0 && (y % 100 ≠ 0 || y % 400 = 0)

/-- Length of a month. -/
def daysInMonth (y m : Nat) : Nat :=
  if m = 2 then (if isLeap y then 29 else 28)
  else if m = 4 ∨ m = 6 ∨ m = 9 ∨ m = 11 then 30
  else 31

/-- Validity of a calendar date under Python datetime (years 1..9999). -/
def validDate (y m d : Nat) : Bool :=
  decide (1 ≤ y) && decide (y ≤ 9999) && decide (1 ≤ m) && decide (m ≤ 12) &&
    decide (1 ≤ d) && decide (d ≤ daysInMonth y m)

/-- The dash separator of the ISO date format. -/
def sepDash : Char := '-'

/-- The slash separator of the month-first date formats. -/
def sepSlash : Char := '/'

/-- Split a character list on a separator character. -/
def splitChar (sep : Char) : List Char → List (List Char)
  | [] => [[]]
  | c :: cs =>
    match splitChar sep cs with
    | [] => if c = sep then [[], []] else [[c]]
    | g :: gs => if c = sep then [] :: g :: gs else (c :: g) :: gs

/-- Numeric field accumulator: digits only, most significant first. -/
def natOfDigitsAux (acc : Nat) : List Char → Option Nat
  | [] => some acc
  | c :: cs => if c.isDigit then natOfDigitsAux (acc * 10 + (c.toNat - 48)) cs else none

/-- Numeric field of a nonempty all-digit character list. -/
def natOfDigits : List Char → Option Nat
  | [] => none
  | c :: cs => natOfDigitsAux 0 (c :: cs)

/-- Field length of one or two digits (strptime %m and %d accept one
or two digits). -/
def len12 (l : List Char) : Bool := decide (l.length = 1) || decide (l.length = 2)

/-- Strict parse of the whole field under the %Y-%m-%d format of the
first pd.to_datetime attempt (src/code.py:34): a four-digit year, a
one- or two-digit month and day, and a valid calendar date. -/
def parseISO (s : String) : Option GDate :=
  match splitChar sepDash s.data with
  | [ys, ms, ds] =>
    if decide (ys.length = 4) && len12 ms && len12 ds then
      match natOfDigits ys, natOfDigits ms, natOfDigits ds with
      | some y, some m, some d => if validDate y m d then some ⟨y, m, d⟩ else none
      | _, _, _ => none
    else none
  | _ => none

/-- Strict parse under %m/%d/%Y, the second attempt (src/code.py:37);
strptime %Y requires exactly four digits. -/
def parseMDY4 (s : String) : Option GDate :=
  match splitChar sepSlash s.data with
  | [ms, ds, ys] =>
    if len12 ms && len12 ds && decide (ys.length = 4) then
      match natOfDigits ms, natOfDigits ds, natOfDigits ys with
      | some m, some d, some y => if validDate y m d then some ⟨y, m, d⟩ else none
      | _, _, _ => none
    else none
  | _ => none

/-- Century mapping of strptime %y: 00-68 is 20xx, 69-99 is 19xx. -/
def y2k (yy : Nat) : Nat := if yy ≤ 68 then 2000 + yy else 1900 + yy

/-- Strict parse under %m/%d/%y, the third attempt (src/code.py:40);
strptime %y requires exactly two digits. -/
def parseMDY2 (s : String) : Option GDate :=
  match splitChar sepSlash s.data with
  | [ms, ds, ys] =>
    if len12 ms && len12 ds && decide (ys.length = 2) then
      match natOfDigits ms, natOfDigits ds, natOfDigits ys with
      | some m, some d, some yy =>
        if validDate (y2k yy) m d then some ⟨y2k yy, m, d⟩ else none
      | _, _, _ => none
    else none
  | _ => none

/-- All-or-nothing parse of a whole batch's date column under one
strict format: pd.to_datetime with an explicit format raises (and the
script falls to the next format) as soon as one row fails.  Each row
carries an arbitrary payload standing for its value cells. -/
def parseAllRows {α : Type} (p : String → Option GDate) :
    List (String × α) → Option (List (GDate × α))
  | [] => some []
  | r :: rs =>
    match p r.1 with
    | none => none
    | some d =>
      match parseAllRows p rs with
      | none => none
      | some ds => some ((d, r.2) :: ds)

/-- The loader's date resolution (src/code.py:33-47): try the strict
formats %Y-%m-%d, %m/%d/%Y, %m/%d/%y in that order on the whole
column; if all three raise, fall back to the lenient parse
(pd.to_datetime with errors=coerce, modelled by the parameter L since
dateutil inference is outside the embedding), after which the dropna
at src/code.py:47 drops exactly the rows whose date came out NaT. -/
def loadRows {α : Type} (L : String → Option GDate) (rows : List (String × α)) :
    List (GDate × α) :=
  match parseAllRows parseISO rows with
  | some ds => ds
  | none =>
    match parseAllRows parseMDY4 rows with
    | some ds => ds
    | none =>
      match parseAllRows parseMDY2 rows with
      | some ds => ds
      | none => rows.filterMap (fun p => (L p.1).map (fun d => (d, p.2)))

/-- Modelled from the spec: the inner-join alignment that §4.3 of the
spec prescribes — the rows of b whose date occurs in the reference
batch.  The source performs no such exclusion (its merge is how=left);
this definition exists only to compare the spec's policy with the
code's behaviour. -/
def specAlignedRows (ref b : Batch) : List Row :=
  b.rows.filter (fun r => decide (r.date ∈ ref.rows.map Row.date))

/-- Modelled from the spec: the tally of undefined-factor (zero anchor
value) rows that §7 of the spec requires to be surfaced to the caller;
the source computes and surfaces no such tally. -/
def specUndefinedRowCount (b : Batch) (anchor : String) : Nat :=
  (b.rows.filter (fun r => decide (getCol b.cols r anchor = some 0))).length

/-- Anchor keyword of the running example (the spec's end-to-end
example in §8). -/
def kwCol : String := "kw"

/-- Second keyword of the running example. -/
def otherCol : String := "other"

/-- Reference batch of the spec's end-to-end example: one row,
2024-01-01 encoded as date 1, kw=50, other=5. -/
def exRef : Batch := ⟨[kwCol, otherCol], [⟨1, [some 50, some 5]⟩]⟩

/-- Non-reference batch of the spec's end-to-end example: dates 1 and 2
(2024-01-01 and 2024-01-02), the latter absent from the reference. -/
def exB : Batch := ⟨[kwCol, otherCol], [⟨1, [some 100, some 10]⟩, ⟨2, [some 200, some 20]⟩]⟩

/-- Batch with a zero anchor value at the shared date 1. -/
def exZero : Batch := ⟨[kwCol, otherCol], [⟨1, [some 0, some 7]⟩]⟩

/-- Keyword name A of the resolver examples in §8 of the spec. -/
def colA : String := "A"

/-- Keyword name B of the resolver examples. -/
def colB : String := "B"

/-- Keyword name C of the resolver examples. -/
def colC : String := "C"

/-- Keyword name D of the resolver examples. -/
def colD : String := "D"

/-- Keyword name E of the resolver examples. -/
def colE : String := "E"

/-- Batch with keyword set {A,B}, from the NoCommonAnchor example. -/
def exAB : Batch := ⟨[colA, colB], []⟩

/-- Batch with keyword set {C,D}, from the NoCommonAnchor example. -/
def exCD : Batch := ⟨[colC, colD], []⟩

/-- Batch with keyword set {A,B,C}, from the intersection example. -/
def exABC : Batch := ⟨[colA, colB, colC], []⟩

/-- Batch with keyword set {B,C,D}, from the intersection example. -/
def exBCD : Batch := ⟨[colB, colC, colD], []⟩

/-- Batch with keyword set {B,C,E}, from the intersection example. -/
def exBCE : Batch := ⟨[colB, colC, colE], []⟩

/-- Date string of the loader witness that parses under the ISO format. -/
def isoRowStr : String := "2024-01-15"

/-- Date string of the loader witness that no format parses. -/
def badRowStr : String := "garbage"

/-- Multiplication by a NaN factor is NaN. -/
theorem omul_none_right (v : Option ℚ) : omul v none = none := by
  cases v <;> rfl

/-- Multiplication by factor 1 leaves a cell unchanged. -/
theorem omul_one_right (v : Option ℚ) : omul v (some 1) = v := by
  cases v <;> simp [omul]

/-- A whole row multiplied by a NaN factor is all NaN. -/
theorem map_omul_none (l : List (Option ℚ)) :
    l.map (fun v => omul v none) = List.replicate l.length none := by
  induction l with
  | nil => rfl
  | cons v vs ih => simp [List.replicate_succ, omul_none_right, ih]

/-- A whole row multiplied by factor 1 is unchanged. -/
theorem map_omul_one (l : List (Option ℚ)) : l.map (fun v => omul v (some 1)) = l := by
  induction l with
  | nil => rfl
  | cons v vs ih => simp [omul_one_right, ih]

/-- Column read of a rescaled row: the original cell times the factor. -/
theorem getCol_scaleRow (cols : List String) (f : Option ℚ) (r : Row) (c : String) :
    getCol cols (scaleRow f r) c = omul (getCol cols r c) f := by
  unfold getCol scaleRow
  cases indexOfCol c cols with
  | none => cases f <;> rfl
  | some i =>
    simp only [List.getElem?_map]
    cases h : r.vals[i]? with
    | none => cases f <;> rfl
    | some v => cases v <;> cases f <;> rfl

/-- The factor is NaN whenever the reference cell is NaN, whatever the
anchor cell holds (in particular when the date is absent from the
reference series). -/
theorem rowFactor_none_left (av : Option ℚ) : rowFactor none av = none := by
  cases av with
  | none => rfl
  | some a => by_cases h : a = 0 <;> simp [rowFactor, h]

/-- The factor is NaN on a zero anchor value. -/
theorem rowFactor_zero_right (refv : Option ℚ) : rowFactor refv (some 0) = none := by
  simp [rowFactor]

/-- A nonzero anchor value and a present reference cell give the ratio. -/
theorem rowFactor_some (rv a : ℚ) (h : a ≠ 0) :
    rowFactor (some rv) (some a) = some (rv / a) := by
  simp [rowFactor, h]

/-- Rescaling keeps the date key. -/
theorem scaleRow_date (f : Option ℚ) (r : Row) : (scaleRow f r).date = r.date := rfl

/-- Rows of the normalized batch, unfolded. -/
theorem normalizeBatch_rows (ref : Batch) (anchor : String) (b : Batch) :
    (normalizeBatch ref anchor b).rows
      = b.rows.map (fun r => scaleRow (batchFactor ref anchor b r) r) := rfl

/-- A row rescaled with the factor of a zero-anchor row is all NaN. -/
theorem zeroAnchor_vals (ref : Batch) (anchor : String) (b : Batch) (r : Row)
    (h : getCol b.cols r anchor = some 0) :
    (scaleRow (batchFactor ref anchor b r) r).vals = List.replicate r.vals.length none := by
  show r.vals.map (fun v => omul v (batchFactor ref anchor b r)) = _
  rw [batchFactor, h, rowFactor_zero_right, map_omul_none]

/-- Date lookup in a list of rows transformed by a date-preserving map. -/
theorem find?_map_date (F : Row → Row) (hF : ∀ r, (F r).date = r.date)
    (l : List Row) (d : Int) :
    (l.map F).find? (fun r => decide (r.date = d))
      = (l.find? (fun r => decide (r.date = d))).map F := by
  induction l with
  | nil => rfl
  | cons r rs ih =>
    by_cases h : r.date = d
    · have h1 : (decide ((F r).date = d)) = true := by rw [hF]; exact decide_eq_true h
      have h2 : (decide (r.date = d)) = true := decide_eq_true h
      rw [List.map_cons,
        @List.find?_cons_of_pos _ (fun r => decide (r.date = d)) (F r) (List.map F rs) h1,
        @List.find?_cons_of_pos _ (fun r => decide (r.date = d)) r rs h2]
      rfl
    · have h1 : ¬ (decide ((F r).date = d)) = true := by rw [hF]; simpa using h
      have h2 : ¬ (decide (r.date = d)) = true := by simpa using h
      rw [List.map_cons,
        @List.find?_cons_of_neg _ (fun r => decide (r.date = d)) (F r) (List.map F rs) h1,
        @List.find?_cons_of_neg _ (fun r => decide (r.date = d)) r rs h2, ih]

/-- With unique dates, the date lookup of a member row finds that row. -/
theorem find?_date_self (l : List Row) (r0 : Row)
    (hnd : (l.map Row.date).Nodup) (hr : r0 ∈ l) :
    l.find? (fun r => decide (r.date = r0.date)) = some r0 := by
  induction l with
  | nil => cases hr
  | cons r rs ih =>
    rw [List.map_cons, List.nodup_cons] at hnd
    rcases List.mem_cons.mp hr with h | h
    · subst h
      exact List.find?_cons_of_pos _ (decide_eq_true rfl)
    · have hne : ¬ r.date = r0.date := by
        intro he
        exact hnd.1 (he ▸ List.mem_map_of_mem Row.date h)
      rw [List.find?_cons_of_neg _ (by simpa using hne)]
      exact ih hnd.2 h

/-- First hit of a find? when everything to the left fails the test. -/
theorem find?_append_first {α : Type} (p : α → Bool) (pre : List α) (b : α) (post : List α)
    (hpre : ∀ x ∈ pre, p x = false) (hb : p b = true) :
    (pre ++ b :: post).find? p = some b := by
  induction pre with
  | nil => simpa using List.find?_cons_of_pos _ hb
  | cons x xs ih =>
    rw [List.cons_append, List.find?_cons_of_neg]
    · exact ih (fun y hy => hpre y (List.mem_cons_of_mem x hy))
    · simp [hpre x (List.mem_cons_self x xs)]

/-- Membership in the de-duplication helper. -/
theorem mem_keepFirstAux {α : Type} [DecidableEq α] (c : α) (seen l : List α) :
    c ∈ keepFirstAux seen l ↔ c ∈ l ∧ c ∉ seen := by
  induction l generalizing seen with
  | nil => simp [keepFirstAux]
  | cons x xs ih =>
    by_cases hx : x ∈ seen
    · rw [keepFirstAux, if_pos hx, ih]
      constructor
      · rintro ⟨h1, h2⟩
        exact ⟨List.mem_cons_of_mem x h1, h2⟩
      · rintro ⟨h1, h2⟩
        rcases List.mem_cons.mp h1 with h | h
        · subst h; exact absurd hx h2
        · exact ⟨h, h2⟩
    · rw [keepFirstAux, if_neg hx]
      by_cases hcx : c = x
      · subst hcx
        simp [List.mem_cons, hx]
      · constructor
        · intro h
          rcases List.mem_cons.mp h with h | h
          · exact absurd h hcx
          · rcases (ih (x :: seen)).mp h with ⟨h1, h2⟩
            exact ⟨List.mem_cons_of_mem x h1, fun hc => h2 (List.mem_cons_of_mem x hc)⟩
        · rintro ⟨h1, h2⟩
          rcases List.mem_cons.mp h1 with h | h
          · exact absurd h hcx
          · exact List.mem_cons_of_mem x
              ((ih (x :: seen)).mpr ⟨h, by simp [List.mem_cons, hcx, h2]⟩)

/-- The de-duplication helper yields no duplicates. -/
theorem nodup_keepFirstAux {α : Type} [DecidableEq α] (seen l : List α) :
    (keepFirstAux seen l).Nodup := by
  induction l generalizing seen with
  | nil => simp [keepFirstAux]
  | cons x xs ih =>
    by_cases hx : x ∈ seen
    · rw [keepFirstAux, if_pos hx]
      exact ih seen
    · rw [keepFirstAux, if_neg hx]
      refine List.nodup_cons.mpr ⟨?_, ih (x :: seen)⟩
      intro hxin
      exact ((mem_keepFirstAux x (x :: seen) xs).mp hxin).2 (List.mem_cons_self x seen)

/-- De-duplication keeps exactly the names that occur. -/
theorem mem_keepFirst {α : Type} [DecidableEq α] (c : α) (l : List α) :
    c ∈ keepFirst l ↔ c ∈ l := by
  rw [keepFirst, mem_keepFirstAux]
  simp

/-- De-duplication yields no duplicates. -/
theorem nodup_keepFirst {α : Type} [DecidableEq α] (l : List α) :
    (keepFirst l).Nodup := nodup_keepFirstAux [] l

/-- A successful all-or-nothing column parse keeps every row. -/
theorem parseAllRows_length {α : Type} (p : String → Option GDate)
    (rows : List (String × α)) (ds : List (GDate × α))
    (h : parseAllRows p rows = some ds) : ds.length = rows.length := by
  induction rows generalizing ds with
  | nil =>
    rw [parseAllRows] at h
    cases h
    rfl
  | cons r rs ih =>
    rw [parseAllRows] at h
    cases hp : p r.1 <;> rw [hp] at h
    · cases h
    · cases hq : parseAllRows p rs <;> rw [hq] at h
      · cases h
      · cases h
        simp [ih _ hq]

/-- Claim C1 (confirmed): for a batch row whose anchor-column value is
0, the per-row scaling factor is the undefined marker none (the
np.where branch, not a quotient), the marker propagates to every
rescaled value cell of that row in the normalized batch (the row
becomes all none, so no cell is silently 0, 1, or any number — the
model has no infinities at all), and the rescaled row is present in
the normalized batch. -/
theorem C1_zero_anchor_undefined_propagates (ref b : Batch) (anchor : String) (r : Row)
    (hr : r ∈ b.rows) (h0 : getCol b.cols r anchor = some 0) :
    batchFactor ref anchor b r = none
    ∧ (scaleRow (batchFactor ref anchor b r) r).vals = List.replicate r.vals.length none
    ∧ scaleRow (batchFactor ref anchor b r) r ∈ (normalizeBatch ref anchor b).rows := by
  refine ⟨?_, zeroAnchor_vals ref anchor b r h0, ?_⟩
  · rw [batchFactor, h0, rowFactor_zero_right]
  · rw [normalizeBatch_rows]
    exact List.mem_map_of_mem _ hr

/-- Witness for C1 at the zero-anchor row of the example batch. -/
theorem C1_zero_anchor_witness :
    batchFactor exRef kwCol exZero ⟨1, [some 0, some 7]⟩ = none
    ∧ (scaleRow (batchFactor exRef kwCol exZero ⟨1, [some 0, some 7]⟩)
        ⟨1, [some 0, some 7]⟩).vals = List.replicate 2 none := by
  have h := C1_zero_anchor_undefined_propagates exRef exZero kwCol ⟨1, [some 0, some 7]⟩
    (by simp [exZero]) (by simp [getCol, exZero, kwCol, indexOfCol])
  exact ⟨h.1, h.2.1⟩

/-- Counterexample to claim C2: in the spec's end-to-end example the
date-2 row of the non-reference batch has no match in the reference
series, yet the code's how=left merge keeps it (as an all-NaN row):
the normalized row count is 2, not the aligned count 1, and the
unmatched row is present rather than excluded. -/
theorem C2_left_join_counterexample :
    (normalizeBatch exRef kwCol exB).rows.length = 2
    ∧ (specAlignedRows exRef exB).length = 1
    ∧ (normalizeBatch exRef kwCol exB).rows.length ≠ (specAlignedRows exRef exB).length
    ∧ (⟨2, [none, none]⟩ : Row) ∈ (normalizeBatch exRef kwCol exB).rows := by
  refine ⟨by simp [normalizeBatch, exB], by simp [specAlignedRows, exRef, exB],
    by simp [normalizeBatch, specAlignedRows, exRef, exB], ?_⟩
  simp [normalizeBatch, exRef, exB, kwCol, otherCol, batchFactor, cellOf, rowFactor,
    scaleRow, omul, getCol, indexOfCol, List.find?]

/-- Claim C2 amended (corrected): the code aligns with a left merge on
date, not an inner join: every row of the batch survives into the
normalized output with its date (same count, same order), and a row
whose date is absent from the reference series is retained with every
value cell set to the undefined marker none rather than excluded; no
dropped-row count exists to be reported. -/
theorem C2_rows_retained_with_nan (ref : Batch) (anchor : String) (b : Batch) :
    (normalizeBatch ref anchor b).rows.map Row.date = b.rows.map Row.date
    ∧ ∀ r ∈ (normalizeBatch ref anchor b).rows,
        r.date ∉ ref.rows.map Row.date →
        r.vals = List.replicate r.vals.length none := by
  constructor
  · rw [normalizeBatch_rows, List.map_map]
    exact List.map_congr_left (fun r _ => rfl)
  · intro r hrmem hdate
    rw [normalizeBatch_rows] at hrmem
    rcases List.mem_map.mp hrmem with ⟨r0, hr0, hEq⟩
    subst hEq
    have hfind : ref.rows.find? (fun rr => decide (rr.date = r0.date)) = none :=
      List.find?_eq_none.mpr (fun x hx hpx =>
        hdate (by
          rw [scaleRow_date]
          exact of_decide_eq_true hpx ▸ List.mem_map_of_mem Row.date hx))
    have hfac : batchFactor ref anchor b r0 = none := by
      rw [batchFactor, cellOf, hfind]
      exact rowFactor_none_left _
    rw [hfac]
    show r0.vals.map (fun v => omul v none) = _
    simp [map_omul_none, scaleRow]

/-- Witness for the amended C2 at the example batches: the date list is
unchanged and the unaligned date-2 row came out all-NaN. -/
theorem C2_rows_retained_witness :
    (normalizeBatch exRef kwCol exB).rows.map Row.date = exB.rows.map Row.date
    ∧ (Row.mk 2 [none, none]).vals = List.replicate 2 none := by
  refine ⟨(C2_rows_retained_with_nan exRef kwCol exB).1, ?_⟩
  exact (C2_rows_retained_with_nan exRef kwCol exB).2 ⟨2, [none, none]⟩
    (by simp [normalizeBatch, exRef, exB, kwCol, otherCol, batchFactor, cellOf,
      rowFactor, scaleRow, omul, getCol, indexOfCol, List.find?])
    (by simp [exRef])

/-- Counterexample to claim C3: normalizing the reference batch against
itself is not the identity when the reference holds a zero anchor
value: the factor of that row is undefined rather than 1 and the row's
values (7 among them) become NaN rather than passing through. -/
theorem C3_zero_row_counterexample :
    batchFactor exZero kwCol exZero ⟨1, [some 0, some 7]⟩ ≠ some 1
    ∧ normalizeBatch exZero kwCol exZero ≠ exZero := by
  constructor
  · simp [batchFactor, exZero, kwCol, otherCol, cellOf, rowFactor, getCol, indexOfCol,
      List.find?]
  · simp [normalizeBatch, exZero, kwCol, otherCol, batchFactor, cellOf, rowFactor,
      scaleRow, omul, getCol, indexOfCol, List.find?, Batch.mk.injEq, Row.mk.injEq]

/-- Claim C3 amended (corrected): with the batch's dates unique (the
data-model invariant), every row of the reference batch whose anchor
value is nonzero gets scaling factor exactly 1 and passes through the
scaling unchanged; a row with anchor value 0 instead gets the
undefined factor and all-NaN values (see the counterexample). -/
theorem C3_identity_on_nonzero_rows (b : Batch) (anchor : String) (r0 : Row) (a : ℚ)
    (hnd : (b.rows.map Row.date).Nodup) (hr : r0 ∈ b.rows)
    (ha : getCol b.cols r0 anchor = some a) (h0 : a ≠ 0) :
    batchFactor b anchor b r0 = some 1
    ∧ scaleRow (batchFactor b anchor b r0) r0 = r0 := by
  have hcell : cellOf b r0.date anchor = some a := by
    rw [cellOf, find?_date_self b.rows r0 hnd hr]
    exact ha
  have hfac : batchFactor b anchor b r0 = some 1 := by
    rw [batchFactor, hcell, ha, rowFactor_some a a h0, div_self h0]
  refine ⟨hfac, ?_⟩
  rw [hfac]
  show Row.mk r0.date (r0.vals.map fun v => omul v (some 1)) = r0
  rw [map_omul_one]

/-- Witness for the amended C3 at the reference row with anchor 50. -/
theorem C3_identity_witness :
    batchFactor exRef kwCol exRef ⟨1, [some 50, some 5]⟩ = some 1
    ∧ scaleRow (batchFactor exRef kwCol exRef ⟨1, [some 50, some 5]⟩)
        ⟨1, [some 50, some 5]⟩ = ⟨1, [some 50, some 5]⟩ :=
  C3_identity_on_nonzero_rows exRef kwCol ⟨1, [some 50, some 5]⟩ 50
    (by simp [exRef]) (by simp [exRef])
    (by simp [getCol, exRef, kwCol, indexOfCol]) (by norm_num)

/-- Counterexample to claim C4: date 1 is present in both the zero
batch and the reference series (reference value 50), yet the
normalized anchor cell is the NaN marker, not 50 — anchor convergence
fails at a zero anchor value under the implemented scale-in-place
policy, and no other policy exists in the code. -/
theorem C4_zero_anchor_counterexample :
    cellOf exRef 1 kwCol = some 50
    ∧ cellOf (normalizeBatch exRef kwCol exZero) 1 kwCol = none
    ∧ cellOf (normalizeBatch exRef kwCol exZero) 1 kwCol ≠ cellOf exRef 1 kwCol := by
  refine ⟨?_, ?_, ?_⟩ <;>
    simp [normalizeBatch, exRef, exZero, kwCol, otherCol, batchFactor, cellOf,
      rowFactor, scaleRow, omul, getCol, indexOfCol, List.find?]

/-- Claim C4 amended (corrected): under the code's scale-in-place
policy (the only one implemented), for a date present in both a batch
and the reference series the normalized anchor cell equals the
reference value exactly — no tolerance is needed over ℚ — whenever the
batch's anchor value at that date is nonzero; at a zero anchor value
it is the undefined marker instead (see the counterexample). -/
theorem C4_anchor_convergence_nonzero (ref b : Batch) (anchor : String) (d : Int)
    (r0 : Row) (a rv : ℚ)
    (hfind : b.rows.find? (fun r => decide (r.date = d)) = some r0)
    (ha : getCol b.cols r0 anchor = some a) (h0 : a ≠ 0)
    (href : cellOf ref d anchor = some rv) :
    cellOf (normalizeBatch ref anchor b) d anchor = some rv := by
  have hp := @List.find?_some Row (fun r => decide (r.date = d)) r0 b.rows hfind
  have hd : r0.date = d := of_decide_eq_true hp
  have hfac : batchFactor ref anchor b r0 = some (rv / a) := by
    rw [batchFactor, hd, href, ha, rowFactor_some rv a h0]
  have hmul : a * (rv / a) = rv := by
    rw [mul_comm]
    exact div_mul_cancel₀ rv h0
  rw [cellOf, normalizeBatch_rows,
    find?_map_date (fun r => scaleRow (batchFactor ref anchor b r) r) (fun r => rfl)
      b.rows d, hfind]
  show getCol b.cols (scaleRow (batchFactor ref anchor b r0) r0) anchor = some rv
  rw [getCol_scaleRow, ha, hfac]
  show some (a * (rv / a)) = some rv
  rw [hmul]

/-- Witness for the amended C4: the spec's end-to-end example, where
the batch-1 anchor cell at the shared date becomes 50 = 100 · (50/100). -/
theorem C4_anchor_convergence_witness :
    cellOf (normalizeBatch exRef kwCol exB) 1 kwCol = some 50 :=
  C4_anchor_convergence_nonzero exRef exB kwCol 1 ⟨1, [some 100, some 10]⟩ 100 50
    (by simp [exB, List.find?]) (by simp [getCol, exB, kwCol, indexOfCol]) (by norm_num)
    (by simp [cellOf, exRef, kwCol, otherCol, getCol, indexOfCol, List.find?])

/-- Counterexample to claim C5: the spec's three-batch example yields
the two-candidate set {B,C}; the code requires no selection input (the
choice function is total on any enumeration, with no user parameter)
and the choice is not determined by the candidate set: two
enumerations of one and the same set — Python's set enumeration order
is unspecified — give different anchors. -/
theorem C5_order_dependent_counterexample :
    commonInter [exABC, exBCD, exBCE] = [colB, colC]
    ∧ List.Perm [colB, colC] [colC, colB]
    ∧ anchorChoice [colB, colC] = some colB
    ∧ anchorChoice [colC, colB] = some colC
    ∧ anchorChoice [colB, colC] ≠ anchorChoice [colC, colB] :=
  ⟨by decide, List.Perm.swap colC colB [], rfl, rfl, by decide⟩

/-- Claim C5 amended (corrected): with more than one candidate the
engine requires no explicit selection, and its silent choice is a
function of the set enumeration order rather than of the candidate set
(see the counterexample); what does hold is that the chosen anchor is
the head of the enumeration and always belongs to the candidate set. -/
theorem C5_head_of_enumeration_in_candidates (enum inter : List String) (a : String)
    (he : anchorChoice enum = some a) (hmem : ∀ k, k ∈ enum ↔ k ∈ inter) :
    a ∈ inter := by
  cases enum with
  | nil => cases he
  | cons x xs =>
    rw [anchorChoice] at he
    injection he with hxa
    subst hxa
    exact (hmem x).mp (List.mem_cons_self x xs)

/-- Witness for the amended C5: the head choice from an enumeration of
{B,C} lies in the candidate set. -/
theorem C5_head_witness : colB ∈ [colB, colC] :=
  C5_head_of_enumeration_in_candidates [colB, colC] [colB, colC] colB rfl
    (fun _ => Iff.rfl)

/-- Claim C6 (confirmed): an empty keyword intersection makes the run
fail with the no-common-anchor error: the pipeline's result is the
error message — no scaling runs and no normalized output exists — for
every enumeration input. -/
theorem C6_no_common_anchor_aborts (bs : List Batch) (enum : List String)
    (h : commonInter bs = []) :
    runPipeline bs enum = Except.error errorMsg := by
  rw [runPipeline, if_pos h]

/-- Witness for C6 at the spec's disjoint keyword sets {A,B} and {C,D}. -/
theorem C6_abort_witness :
    runPipeline [exAB, exCD] [colA] = Except.error errorMsg :=
  C6_no_common_anchor_aborts [exAB, exCD] [colA] (by decide)

/-- Claim C7 (confirmed): the merged table's column list carries no
duplicate names, a name appears iff some batch carries it, and when
every batch left of b lacks a name c that b carries, the merged column
c holds b's values, so the first-seen occurrence wins with no error
and no averaging; in particular the anchor keyword, shared by all
batches, occurs exactly once. -/
theorem C7_dedup_first_wins (bs : List Batch) :
    (mergedCols bs).Nodup
    ∧ (∀ c, c ∈ mergedCols bs ↔ ∃ b ∈ bs, c ∈ b.cols)
    ∧ ∀ (pre : List Batch) (b : Batch) (post : List Batch) (c : String) (d : Int),
        bs = pre ++ b :: post → (∀ b2 ∈ pre, c ∉ b2.cols) → c ∈ b.cols →
        mergedCell bs c d = cellOf b d c := by
  refine ⟨nodup_keepFirst _, ?_, ?_⟩
  · intro c
    rw [mergedCols, mem_keepFirst, List.mem_flatten]
    constructor
    · rintro ⟨l, hl, hcl⟩
      rcases List.mem_map.mp hl with ⟨b, hb, hbl⟩
      exact ⟨b, hb, hbl ▸ hcl⟩
    · rintro ⟨b, hb, hcb⟩
      exact ⟨b.cols, List.mem_map_of_mem Batch.cols hb, hcb⟩
  · intro pre b post c d hbs hpre hcb
    subst hbs
    have h1 : ∀ x ∈ pre, (fun b2 => decide (c ∈ b2.cols)) x = false := by
      intro x hx
      exact decide_eq_false (hpre x hx)
    have h2 : (fun b2 => decide (c ∈ b2.cols)) b = true := decide_eq_true hcb
    rw [mergedCell, find?_append_first _ pre b post h1 h2]

/-- Witness for C7 at the two example batches, which share both column
names: the merged column list is duplicate-free and the shared kw
column carries the first batch's values. -/
theorem C7_dedup_witness :
    (mergedCols [exRef, exB]).Nodup
    ∧ mergedCell [exRef, exB] kwCol 1 = cellOf exRef 1 kwCol := by
  refine ⟨(C7_dedup_first_wins [exRef, exB]).1, ?_⟩
  exact (C7_dedup_first_wins [exRef, exB]).2.2 [] exRef [exB] kwCol 1 rfl
    (by intro b2 hb2; cases hb2) (by simp [exRef])

/-- Claim C8 (confirmed): the merge is an outer join on the date key:
a date is a row of the merged table iff some batch has a row for it,
and a column's cell at a date that its owning batch (the first batch
carrying that column name) lacks is the explicit no-value marker none
rather than the date being dropped. -/
theorem C8_outer_join_union (bs : List Batch) :
    (∀ d : Int, d ∈ mergedDates bs ↔ ∃ b ∈ bs, d ∈ b.rows.map Row.date)
    ∧ ∀ (b : Batch) (c : String) (d : Int),
        bs.find? (fun b2 => decide (c ∈ b2.cols)) = some b →
        d ∉ b.rows.map Row.date →
        mergedCell bs c d = none := by
  constructor
  · intro d
    rw [mergedDates, mem_keepFirst, List.mem_flatten]
    constructor
    · rintro ⟨l, hl, hdl⟩
      rcases List.mem_map.mp hl with ⟨b, hb, hbl⟩
      exact ⟨b, hb, hbl ▸ hdl⟩
    · rintro ⟨b, hb, hdb⟩
      exact ⟨b.rows.map Row.date, List.mem_map_of_mem _ hb, hdb⟩
  · intro b c d hfind hd
    have hnone : b.rows.find? (fun r => decide (r.date = d)) = none :=
      List.find?_eq_none.mpr (fun x hx hpx =>
        hd (of_decide_eq_true hpx ▸ List.mem_map_of_mem Row.date hx))
    rw [mergedCell, hfind]
    show cellOf b d c = none
    rw [cellOf, hnone]

/-- Witness for C8: date 2 comes only from the second batch yet is a
merged row, and the other column — owned by the first batch, which
lacks date 2 — holds the no-value marker there. -/
theorem C8_outer_join_witness :
    ((2 : Int) ∈ mergedDates [exRef, exB])
    ∧ mergedCell [exRef, exB] otherCol 2 = none := by
  constructor
  · exact ((C8_outer_join_union [exRef, exB]).1 2).mpr
      ⟨exB, by simp, by simp [exB]⟩
  · exact (C8_outer_join_union [exRef, exB]).2 exRef otherCol 2
      (by simp [List.find?, exRef, kwCol, otherCol]) (by simp [exRef])

/-- Claim C9 (confirmed): the loader resolves the date column through
the strict formats in the fixed order ISO %Y-%m-%d, then %m/%d/%Y,
then %m/%d/%y — when an earlier format parses the whole column the
later formats and the lenient parser L are never consulted and no row
is dropped — and otherwise falls back to the lenient per-row parse
where exactly the rows whose date fails to parse are dropped
(filterMap) while the others survive; the loader is total and never
grows the batch, so an unparseable row is never fatal to the batch. -/
theorem C9_loader_format_fallback {α : Type} (L : String → Option GDate)
    (rows : List (String × α)) :
    (∀ ds, parseAllRows parseISO rows = some ds → loadRows L rows = ds)
    ∧ (parseAllRows parseISO rows = none →
        ∀ ds, parseAllRows parseMDY4 rows = some ds → loadRows L rows = ds)
    ∧ (parseAllRows parseISO rows = none → parseAllRows parseMDY4 rows = none →
        ∀ ds, parseAllRows parseMDY2 rows = some ds → loadRows L rows = ds)
    ∧ (parseAllRows parseISO rows = none → parseAllRows parseMDY4 rows = none →
        parseAllRows parseMDY2 rows = none →
        loadRows L rows = rows.filterMap (fun p => (L p.1).map (fun d => (d, p.2))))
    ∧ (loadRows L rows).length ≤ rows.length := by
  refine ⟨?_, ?_, ?_, ?_, ?_⟩
  · intro ds h
    rw [loadRows, h]
  · intro h1 ds h2
    rw [loadRows, h1, h2]
  · intro h1 h2 ds h3
    rw [loadRows, h1, h2, h3]
  · intro h1 h2 h3
    rw [loadRows, h1, h2, h3]
  · rcases h1 : parseAllRows parseISO rows with _ | ds1
    · rcases h2 : parseAllRows parseMDY4 rows with _ | ds2
      · rcases h3 : parseAllRows parseMDY2 rows with _ | ds3
        · rw [loadRows, h1, h2, h3]
          exact List.length_filterMap_le _ _
        · rw [loadRows, h1, h2, h3]
          exact le_of_eq (parseAllRows_length parseMDY2 rows ds3 h3)
      · rw [loadRows, h1, h2]
        exact le_of_eq (parseAllRows_length parseMDY4 rows ds2 h2)
    · rw [loadRows, h1]
      exact le_of_eq (parseAllRows_length parseISO rows ds1 h1)

/-- Witness for C9: a column mixing an unparseable entry with an ISO
entry fails all three strict formats as a whole, and the lenient pass
(here the ISO parser again) drops exactly the bad row, keeping the
good one. -/
theorem C9_loader_witness :
    loadRows parseISO [(badRowStr, (0 : Nat)), (isoRowStr, 1)] = [(⟨2024, 1, 15⟩, 1)] := by
  have h := (C9_loader_format_fallback parseISO [(badRowStr, (0 : Nat)), (isoRowStr, 1)]).2.2.2.1
    (by decide) (by decide) (by decide)
  rw [h]
  decide

/-- Counterexample to claim C10: the zero batch has exactly one
undefined-factor (zero anchor) row, yet the messages the run surfaces
are exactly the anchor-detection notice — no tally, count or warning
accompanies the result. -/
theorem C10_no_tally_counterexample :
    specUndefinedRowCount exZero kwCol = 1
    ∧ runMessages [exRef, exZero] [kwCol] = [successMsg kwCol] := by
  constructor
  · simp [specUndefinedRowCount, exZero, kwCol, otherCol, getCol, indexOfCol]
  · simp [runMessages, commonInter, exRef, exZero, kwCol, otherCol]

/-- Claim C10 amended (corrected): zero-anchor rows do receive the
undefined factor, which propagates through every value cell of the
row, but nothing is tallied: whenever an anchor is resolved, the only
message surfaced alongside the result is the anchor-detection notice,
with no count of undefined-factor rows in it. -/
theorem C10_nan_propagates_no_tally (bs : List Batch) (a : String) (rest : List String)
    (h : commonInter bs ≠ []) :
    runMessages bs (a :: rest) = [successMsg a]
    ∧ ∀ (ref b : Batch) (r : Row), getCol b.cols r a = some 0 →
        (scaleRow (batchFactor ref a b r) r).vals = List.replicate r.vals.length none := by
  constructor
  · rw [runMessages, if_neg h]
  · intro ref b r h0
    exact zeroAnchor_vals ref a b r h0

/-- Witness for the amended C10 at the example batches: only the
anchor notice is surfaced while the zero-anchor row went all-NaN. -/
theorem C10_no_tally_witness :
    runMessages [exRef, exZero] [kwCol] = [successMsg kwCol]
    ∧ (scaleRow (batchFactor exRef kwCol exZero ⟨1, [some 0, some 7]⟩)
        ⟨1, [some 0, some 7]⟩).vals = List.replicate 2 none := by
  have h := C10_nan_propagates_no_tally [exRef, exZero] kwCol []
    (by simp [commonInter, exRef, exZero, kwCol, otherCol])
  exact ⟨h.1, h.2 exRef exZero ⟨1, [some 0, some 7]⟩
    (by simp [getCol, exZero, kwCol, indexOfCol])⟩

end GTN
